import Mathlib

/-!
Verification of the pdf_text_extractor repository (src/extract_to_image.py and
src/pdf_extractor.py) against its natural-language specification.

Shallow embedding choices:
* A PDF source (path or byte buffer) is modelled by its decode result: an
  `Option (List Image)` — `none` for an unreadable / non-existent source,
  `some pages` for a readable document with the given page images.  The
  external pdf2image decoder (spec §6: "returns an ordered sequence of raster
  images or raises a decode error"; page-range decoding is contiguous and
  inclusive) is modelled by `convert_from_path` / `convert_from_path_range`.
* The filesystem is an explicit `FS` record (directories that exist,
  directory names where `os.makedirs` fails, and image files written).
* Python exceptions are `Except String`; a `try/except` that logs and
  returns an empty result is a `match` on the guarded body.  Errors raised
  outside any `try` (e.g. `os.makedirs`, the output-file `open` in `main`)
  propagate as `.error` results of the modelling function.
* Pixel buffers are modelled as single-channel luminance values (`List Nat`);
  `Image.convert 'L'` keeps the luminances and changes the mode tag.
* The Tesseract OCR engine is an oracle `Image → Except String String`.
-/

/-- A raster page image: PIL's `size` is `(width, height)`, `mode` the pixel
mode string, `pixels` the (luminance-modelled) pixel buffer. -/
structure Image where
  width : Nat
  height : Nat
  mode : String
  pixels : List Nat
deriving Repr, DecidableEq, Inhabited

/-- Filesystem state: existing directories, directory names where
`os.makedirs` raises (e.g. the name is taken by a plain file), and the
image files written so far (path, image). -/
structure FS where
  dirs : List String
  blockedDirs : List String
  files : List (String × Image)
deriving Repr, DecidableEq

/-- Model of `os.path.join a b` on POSIX for a relative second component. -/
def joinPath (a b : String) : String := a ++ "/" ++ b

/-- Model of `str.lower()` (kernel-reducible replacement for
`String.toLower`, which is defined by well-founded recursion). -/
def toLowerStr (s : String) : String := ⟨s.data.map Char.toLower⟩

/-- Model of `str.endswith(suf)` (kernel-reducible replacement for
`String.endsWith`). -/
def strEndsWith (s suf : String) : Bool := suf.data.isSuffixOf s.data

/-- Model of `os.path.basename`: the component after the last slash. -/
def os_basename (p : String) : String :=
  ⟨(p.data.reverse.takeWhile (· ≠ '/')).reverse⟩

/-- The stem of `os.path.splitext`: the name up to the last dot (modelled for
ordinary file names with a nonempty stem). -/
def splitextStem (s : String) : String :=
  if '.' ∈ s.data then ⟨((s.data.reverse.dropWhile (· ≠ '.')).tail).reverse⟩ else s

/-- The directory listing after a successful `os.makedirs(d, exist_ok=True)`. -/
def dirsAfterMakedirs (fs : FS) (d : String) : List String :=
  if d ∈ fs.dirs then fs.dirs else d :: fs.dirs

/-- Model of `os.makedirs(d, exist_ok=True)`: raises on a blocked name, otherwise
ensures the directory exists. -/
def os_makedirs (fs : FS) (d : String) : Except String FS :=
  if d ∈ fs.blockedDirs then .error ("makedirs failed: " ++ d)
  else .ok { fs with dirs := dirsAfterMakedirs fs d }

/-- Record a batch of `image.save` file writes. -/
def FS.write (fs : FS) (w : List (String × Image)) : FS :=
  { fs with files := fs.files ++ w }

/-- Modelled from the spec: the external pdf2image decoder
(`convert_from_path` / `convert_from_bytes`).  An unreadable source raises a
decode error; a readable one yields its ordered page images. -/
def convert_from_path (doc : Option (List Image)) : Except String (List Image) :=
  match doc with
  | none => .error "Unable to get page count. Is poppler installed and in PATH?"
  | some pages => .ok pages

/-- Modelled from the spec: the decoder restricted to the inclusive
contiguous 1-indexed range `first_page..last_page` ("the underlying decoder
only supports contiguous ranges"). -/
def convert_from_path_range (doc : Option (List Image)) (first_page last_page : Nat) :
    Except String (List Image) :=
  match doc with
  | none => .error "Unable to get page count. Is poppler installed and in PATH?"
  | some pages => .ok ((pages.take last_page).drop (first_page - 1))

/-- The save loop shared by `convert_pdf_to_images`,
`convert_pdf_bytes_to_images` and `convert_with_custom_settings`:
page `i` (0-based) is written as `page_{i+1}.{format.lower()}` in the
output directory. -/
def savePages (output_dir fmt : String) (images : List Image) : List (String × Image) :=
  images.enum.map (fun p => (joinPath output_dir ("page_" ++ toString (p.1 + 1) ++ "." ++ toLowerStr fmt), p.2))

/-- Embedding of `convert_pdf_to_images(pdf_path, output_dir, dpi, format)`:
`os.makedirs` runs before (outside) the `try`; a decode error inside the
`try` is caught and yields `[]`; otherwise every page is saved and the
paths are returned in page order. -/
def convert_pdf_to_images (fs : FS) (pdf_path : Option (List Image))
    (output_dir : String) (dpi : Nat) (format : String) :
    Except String (FS × List String) :=
  match os_makedirs fs output_dir with
  | .error e => .error e
  | .ok fs1 =>
    match convert_from_path pdf_path with
    | .error _ => .ok (fs1, [])
    | .ok images =>
      let writes := savePages output_dir format images
      .ok (fs1.write writes, writes.map Prod.fst)

/-- Embedding of `convert_pdf_bytes_to_images(pdf_bytes, output_dir, dpi, format)`: the
byte buffer is modelled by its decode result; otherwise identical to
`convert_pdf_to_images`. -/
def convert_pdf_bytes_to_images (fs : FS) (pdf_bytes : Option (List Image))
    (output_dir : String) (dpi : Nat) (format : String) :
    Except String (FS × List String) :=
  match os_makedirs fs output_dir with
  | .error e => .error e
  | .ok fs1 =>
    match convert_from_path pdf_bytes with
    | .error _ => .ok (fs1, [])
    | .ok images =>
      let writes := savePages output_dir format images
      .ok (fs1.write writes, writes.map Prod.fst)

/-- Python `min(pages)` (meaningful only for nonempty input; the empty case
raises `ValueError`, handled at the call site). -/
def pymin : List Nat → Nat
  | [] => 0
  | x :: xs => xs.foldl Nat.min x

/-- Python `max(pages)`. -/
def pymax : List Nat → Nat
  | [] => 0
  | x :: xs => xs.foldl Nat.max x

/-- Python `sorted(pages)`: stable ascending sort. -/
def pysorted (l : List Nat) : List Nat := l.insertionSort (· ≤ ·)

/-- The save loop of `convert_specific_pages`:
`for i, page_num in enumerate(sorted(pages)): if i < len(images):
images[page_num - min(pages)] ...`.  Returns the file writes performed and
`true`, or the partial writes and `false` when `images[page_num - mn]` is
out of bounds (an uncaught-in-the-loop `IndexError`). -/
def specificSaveLoop (images : List Image) (mn : Nat) (output_dir fmt : String) :
    Nat → List Nat → List (String × Image) → List (String × Image) × Bool
  | _, [], acc => (acc, true)
  | i, p :: rest, acc =>
    if i < images.length then
      match images.get? (p - mn) with
      | none => (acc, false)
      | some img =>
        specificSaveLoop images mn output_dir fmt (i + 1) rest
          (acc ++ [(joinPath output_dir ("page_" ++ toString p ++ "." ++ toLowerStr fmt), img)])
    else specificSaveLoop images mn output_dir fmt (i + 1) rest acc

/-- Embedding of `convert_specific_pages(pdf_path, pages, output_dir, dpi, format)`:
`os.makedirs` outside the `try`; inside it, `min(pages)` of an empty list
raises `ValueError` (caught, yielding `[]`); the decoder is invoked on the
inclusive range `min(pages)..max(pages)` only; a decode error or an
`IndexError` in the save loop is caught and yields `[]` (files already
saved before an `IndexError` persist). -/
def convert_specific_pages (fs : FS) (pdf_path : Option (List Image)) (pages : List Nat)
    (output_dir : String) (dpi : Nat) (format : String) :
    Except String (FS × List String) :=
  match os_makedirs fs output_dir with
  | .error e => .error e
  | .ok fs1 =>
    if pages.isEmpty then .ok (fs1, [])
    else
      match convert_from_path_range pdf_path (pymin pages) (pymax pages) with
      | .error _ => .ok (fs1, [])
      | .ok images =>
        match specificSaveLoop images (pymin pages) output_dir format 0 (pysorted pages) [] with
        | (writes, true) => .ok (fs1.write writes, writes.map Prod.fst)
        | (writes, false) => .ok (fs1.write writes, [])

/-- The keyword arguments `convert_with_custom_settings` recognises. -/
structure CustomKwargs where
  dpi : Option Nat := none
  format : Option String := none
  thread_count : Option Nat := none
  userpw : Option String := none
  use_cropbox : Option Bool := none
  strict : Option Bool := none

/-- Embedding of `convert_with_custom_settings(pdf_path, output_dir, **kwargs)`: defaults
(`dpi=200, format='PNG', thread_count=1, use_cropbox=False, strict=False`)
updated by the kwargs; `format` is popped and used for the file names; the
remaining settings are forwarded to the decoder (they do not affect which
pages are produced). -/
def convert_with_custom_settings (fs : FS) (pdf_path : Option (List Image))
    (output_dir : String) (kwargs : CustomKwargs) :
    Except String (FS × List String) :=
  let output_format := kwargs.format.getD "PNG"
  match os_makedirs fs output_dir with
  | .error e => .error e
  | .ok fs1 =>
    match convert_from_path pdf_path with
    | .error _ => .ok (fs1, [])
    | .ok images =>
      let writes := savePages output_dir output_format images
      .ok (fs1.write writes, writes.map Prod.fst)

/-- The dictionary returned by `get_pdf_info`; `none` marks an absent key,
the all-`none` record `{}` is the empty dictionary returned on failure. -/
structure PdfInfo where
  page_count : Option Nat := none
  file_size_mb : Option ℚ := none
  filename : Option String := none
  page_dimensions : Option (Nat × Nat) := none
  page_mode : Option String := none
deriving Repr, DecidableEq

/-- Embedding of `get_pdf_info(pdf_path)`: decodes the whole document (at low dpi) to
count pages; `getsize` models `os.path.getsize(pdf_path)` (also inside the
`try`); dimension and mode keys are added only when a first page exists;
any error yields the empty dictionary. -/
def get_pdf_info (pdf_path : Option (List Image)) (getsize : Except String Nat)
    (pdf_path_str : String) : PdfInfo :=
  match convert_from_path pdf_path with
  | .error _ => {}
  | .ok images =>
    match getsize with
    | .error _ => {}
    | .ok size =>
      let base : PdfInfo :=
        { page_count := some images.length
          file_size_mb := some ((size : ℚ) / (1024 * 1024))
          filename := some (os_basename pdf_path_str) }
      match images with
      | [] => base
      | first :: _ =>
        { base with page_dimensions := some (first.width, first.height)
                    page_mode := some first.mode }

/-- Model of `image.convert('L')`: single-channel grayscale (pixels are already
modelled as luminances). -/
def Image.convertL (img : Image) : Image := { img with mode := "L" }

/-- Model of `image.point(f, mode)`: apply `f` to every pixel and set the mode. -/
def Image.point (img : Image) (f : Nat → Nat) (mode : String) : Image :=
  { img with mode := mode, pixels := img.pixels.map f }

/-- The threshold lambda of pdf_extractor.py: `0 if x < 128 else 255`. -/
def thresholdPixel (x : Nat) : Nat := if x < 128 then 0 else 255

/-- The per-page preprocessing of `extract_text_from_pdf`: grayscale, then
fixed-threshold binarisation to mode `'1'`. -/
def preprocessPage (img : Image) : Image :=
  (img.convertL).point thresholdPixel "1"

/-- The page loop of `extract_text_from_pdf`: preprocess and OCR page
`i` (0-based), collect `"Page {i+1}:\n{text}\n\n"` sections; the first OCR
error aborts the whole loop. -/
def ocrPages (ocr : Image → Except String String) : Nat → List Image → Except String (List String)
  | _, [] => .ok []
  | i, img :: rest =>
    match ocr (preprocessPage img) with
    | .error e => .error e
    | .ok text =>
      match ocrPages ocr (i + 1) rest with
      | .error e => .error e
      | .ok texts => .ok (("Page " ++ toString (i + 1) ++ ":\n" ++ text ++ "\n\n") :: texts)

/-- Embedding of `extract_text_from_pdf(pdf_path)`: decode all pages, OCR each, join the
page sections; any error anywhere inside the `try` yields `""`. -/
def extract_text_from_pdf (pdf_path : Option (List Image))
    (ocr : Image → Except String String) : String :=
  match convert_from_path pdf_path with
  | .error _ => ""
  | .ok images =>
    match ocrPages ocr 0 images with
    | .error _ => ""
    | .ok texts => String.join texts

/-- The environment of the batch driver `main`: whether the `files`
directory exists, its listing, the decode result of each path, the OCR
oracle, and the result of opening-and-writing an output text file (the
`open(...)`/`write` in `main` is outside any `try` and may raise). -/
structure Env where
  files_dir_exists : Bool
  listing : List String
  docs : String → Option (List Image)
  ocr : Image → Except String String
  write : String → String → Except String Unit

/-- One iteration of the loop in `main`: extract the text of one PDF file
and write it to `extracted_text/<stem>_extracted.txt`; returns the
(path, contents) written, or propagates the write error. -/
def processOne (env : Env) (pdf_file : String) : Except String (String × String) :=
  let pdf_path := joinPath "files" pdf_file
  let extracted_text := extract_text_from_pdf (env.docs pdf_path) env.ocr
  let output_path := "extracted_text/" ++ splitextStem pdf_file ++ "_extracted.txt"
  match env.write output_path extracted_text with
  | .error e => .error e
  | .ok _ => .ok (output_path, extracted_text)

/-- The loop of `main` over the PDF files, collecting the files written;
an uncaught write error aborts the batch. -/
def processAll (env : Env) : List String → Except String (List (String × String))
  | [] => .ok []
  | f :: rest =>
    match processOne env f with
    | .error e => .error e
    | .ok r =>
      match processAll env rest with
      | .error e => .error e
      | .ok rs => .ok (r :: rs)

/-- Embedding of `main()` of pdf_extractor.py (named `main_driver` since Lean reserves `main`): return early when `files` is missing or
holds no `*.pdf` (case-insensitive) entries, else process every PDF file. -/
def main_driver (env : Env) : Except String (List (String × String)) :=
  if !env.files_dir_exists then .ok []
  else
    let pdf_files := env.listing.filter (fun f => strEndsWith (toLowerStr f) ".pdf")
    if pdf_files.isEmpty then .ok []
    else processAll env pdf_files

/-- The expected file name of page `n` (1-indexed). -/
def pageFileName (dir fmt : String) (n : Nat) : String :=
  joinPath dir ("page_" ++ toString n ++ "." ++ toLowerStr fmt)

/-- Boolean success test for a modelled Python call: `true` iff no uncaught
exception was raised. -/
def exceptOk {ε α : Type} : Except ε α → Bool
  | .ok _ => true
  | .error _ => false

/-- Sample page image A (a 1×1 black page). -/
def pgA : Image := ⟨1, 1, "RGB", [0]⟩

/-- Sample page image B (a 2×1 page). -/
def pgB : Image := ⟨2, 1, "RGB", [255]⟩

/-- Sample page image C (a 3×1 page). -/
def pgC : Image := ⟨3, 1, "RGB", [17]⟩

/-- Sample image holding both threshold boundary luminances 127 and 128. -/
def pgBoundary : Image := ⟨2, 1, "RGB", [127, 128]⟩

/-- An OCR oracle that fails exactly on 2-pixel-wide pages (such as `pgB`). -/
def ocrFailsOnWidth2 : Image → Except String String :=
  fun img => if img.width = 2 then .error "tesseract error" else .ok "ok"

/-- A batch-driver environment whose output-file write raises (the
`extracted_text` directory is missing), with one readable zero-page PDF. -/
def envWriteFails : Env :=
  { files_dir_exists := true
    listing := ["a.pdf"]
    docs := fun _ => some []
    ocr := fun _ => .ok ""
    write := fun _ _ => .error "FileNotFoundError: extracted_text/a_extracted.txt" }

/-- A batch-driver environment whose output-file writes succeed, with one
unreadable PDF (decode fails, so its extracted text is empty). -/
def envWritesOk : Env :=
  { files_dir_exists := true
    listing := ["a.pdf"]
    docs := fun _ => none
    ocr := fun _ => .ok ""
    write := fun _ _ => .ok () }

/-- A batch-driver environment with one readable 2-page PDF whose pages
OCR to "hello" and "world". -/
def envTwoPages : Env :=
  { files_dir_exists := true
    listing := ["doc.pdf"]
    docs := fun p => if p = "files/doc.pdf" then some [pgA, pgB] else none
    ocr := fun img => if img.width = 1 then .ok "hello" else .ok "world"
    write := fun _ _ => .ok () }

/-- Claim C4: in the OCR pipeline's binarization step, every grayscale pixel
with luminance strictly below 128 becomes black (0) and every pixel with
luminance at or above 128 becomes white (255). -/
theorem c4_binarization_threshold (img : Image) (i : Nat) (hi : i < img.pixels.length) :
    (img.pixels.get ⟨i, hi⟩ < 128 → (preprocessPage img).pixels.getD i 1 = 0) ∧
    (128 ≤ img.pixels.get ⟨i, hi⟩ → (preprocessPage img).pixels.getD i 1 = 255) := by
  have hp : (preprocessPage img).pixels = img.pixels.map thresholdPixel := rfl
  have hg : (img.pixels.map thresholdPixel).getD i 1 = thresholdPixel (img.pixels.get ⟨i, hi⟩) := by
    rw [List.getD_eq_getElem?_getD, List.getElem?_map, List.getElem?_eq_getElem hi]
    simp [List.get_eq_getElem]
  rw [hp, hg]
  unfold thresholdPixel
  constructor <;> intro hx
  · rw [if_pos hx]
  · rw [if_neg (by omega)]

/-- Witness for C4 at the boundary: luminance 127 becomes 0 and luminance
128 becomes 255 in `pgBoundary`. -/
theorem c4_binarization_threshold_witness :
    (preprocessPage pgBoundary).pixels.getD 0 1 = 0 ∧
    (preprocessPage pgBoundary).pixels.getD 1 1 = 255 :=
  ⟨(c4_binarization_threshold pgBoundary 0 (by decide)).1 (by decide),
   (c4_binarization_threshold pgBoundary 1 (by decide)).2 (by decide)⟩

/-- Claim C7: `get_pdf_info` on an empty (zero-page) PDF returns a record
with page count 0, no page-dimension and no color-mode key, while still
holding the file-size-in-megabytes and filename keys. -/
theorem c7_info_empty_pdf (size : Nat) (p : String) :
    get_pdf_info (some []) (.ok size) p =
      { page_count := some 0
        file_size_mb := some ((size : ℚ) / (1024 * 1024))
        filename := some (os_basename p)
        page_dimensions := none
        page_mode := none } := rfl

/-- Claim C9: `convert_specific_pages` with an empty page list returns the
empty list and does not raise — the `ValueError` from `min`/`max` of an
empty sequence is raised inside the `try` and converted to `[]`. -/
theorem c9_empty_page_list (fs : FS) (doc : Option (List Image)) (dir : String)
    (dpi : Nat) (fmt : String) (hdir : dir ∉ fs.blockedDirs) :
    convert_specific_pages fs doc [] dir dpi fmt =
      .ok ({ fs with dirs := dirsAfterMakedirs fs dir }, []) := by
  simp [convert_specific_pages, os_makedirs, hdir]

/-- Witness for C9 on a fresh filesystem and a readable one-page PDF. -/
theorem c9_empty_page_list_witness :
    convert_specific_pages ⟨[], [], []⟩ (some [pgA]) [] "pdf_images" 300 "PNG" =
      .ok (⟨["pdf_images"], [], []⟩, []) := by
  have h := c9_empty_page_list ⟨[], [], []⟩ (some [pgA]) "pdf_images" 300 "PNG" (by simp)
  simpa [dirsAfterMakedirs] using h

theorem os_makedirs_ok (fs : FS) (d : String) (h : d ∉ fs.blockedDirs) :
    os_makedirs fs d = .ok { fs with dirs := dirsAfterMakedirs fs d } := by
  simp [os_makedirs, h]

theorem mem_dirsAfterMakedirs (fs : FS) (d : String) : d ∈ dirsAfterMakedirs fs d := by
  unfold dirsAfterMakedirs
  split
  · assumption
  · exact List.mem_cons_self d fs.dirs

theorem os_makedirs_mem (fs fs1 : FS) (d : String) (h : os_makedirs fs d = .ok fs1) :
    d ∈ fs1.dirs := by
  unfold os_makedirs at h
  split at h
  · exact absurd h (by simp)
  · simp only [Except.ok.injEq] at h
    subst h
    exact mem_dirsAfterMakedirs fs d

theorem savePages_eq_zip (dir fmt : String) (imgs : List Image) :
    savePages dir fmt imgs =
      List.zip ((List.range imgs.length).map (fun i => pageFileName dir fmt (i + 1))) imgs := by
  unfold savePages
  rw [List.enum_eq_zip_range, List.zip_map_left]
  rfl

theorem savePages_map_fst (dir fmt : String) (imgs : List Image) :
    (savePages dir fmt imgs).map Prod.fst =
      (List.range imgs.length).map (fun i => pageFileName dir fmt (i + 1)) := by
  rw [savePages_eq_zip, List.map_fst_zip]
  simp

/-- Claim C1: converting a valid N-page PDF writes exactly N image files
named `page_1` … `page_N` with the requested extension lowercased, and
returns their paths in ascending page order. -/
theorem c1_convert_all_pages (fs : FS) (imgs : List Image) (dir : String) (dpi : Nat)
    (fmt : String) (hdir : dir ∉ fs.blockedDirs) :
    convert_pdf_to_images fs (some imgs) dir dpi fmt =
      .ok ({ dirs := dirsAfterMakedirs fs dir
             blockedDirs := fs.blockedDirs
             files := fs.files ++
               List.zip ((List.range imgs.length).map (fun i => pageFileName dir fmt (i + 1))) imgs },
           (List.range imgs.length).map (fun i => pageFileName dir fmt (i + 1))) := by
  unfold convert_pdf_to_images
  rw [os_makedirs_ok fs dir hdir]
  simp only [convert_from_path, FS.write, savePages_map_fst, savePages_eq_zip]
  rw [List.map_fst_zip _ _ (by simp)]

/-- Witness for C1: a one-page PDF produces exactly `page_1.png`. -/
theorem c1_convert_all_pages_witness :
    convert_pdf_to_images ⟨[], [], []⟩ (some [pgA]) "pdf_images" 300 "PNG" =
      .ok (⟨["pdf_images"], [], [("pdf_images/page_1.png", pgA)]⟩, ["pdf_images/page_1.png"]) := by
  have h := c1_convert_all_pages ⟨[], [], []⟩ [pgA] "pdf_images" 300 "PNG" (by simp)
  rw [h]
  rfl

/-- Claim C5: on an unreadable or non-existent source every rasterizer
operation returns an empty list (or the empty dictionary) and raises no
exception to the caller. -/
theorem c5_unreadable_source_soft_fail (fs : FS) (dir p : String) (dpi : Nat) (fmt : String)
    (pages : List Nat) (kwargs : CustomKwargs) (gs : Except String Nat)
    (hdir : dir ∉ fs.blockedDirs) :
    convert_pdf_to_images fs none dir dpi fmt = .ok ({ fs with dirs := dirsAfterMakedirs fs dir }, []) ∧
    convert_pdf_bytes_to_images fs none dir dpi fmt = .ok ({ fs with dirs := dirsAfterMakedirs fs dir }, []) ∧
    convert_specific_pages fs none pages dir dpi fmt = .ok ({ fs with dirs := dirsAfterMakedirs fs dir }, []) ∧
    convert_with_custom_settings fs none dir kwargs = .ok ({ fs with dirs := dirsAfterMakedirs fs dir }, []) ∧
    get_pdf_info none gs p = {} := by
  refine ⟨?_, ?_, ?_, ?_, rfl⟩
  · simp [convert_pdf_to_images, os_makedirs, hdir, convert_from_path]
  · simp [convert_pdf_bytes_to_images, os_makedirs, hdir, convert_from_path]
  · by_cases hp : pages.isEmpty <;>
      simp [convert_specific_pages, os_makedirs, hdir, convert_from_path_range, hp]
  · simp [convert_with_custom_settings, os_makedirs, hdir, convert_from_path]

/-- Witness for C5 on a fresh filesystem and a missing source file. -/
theorem c5_unreadable_source_soft_fail_witness :
    convert_pdf_to_images ⟨[], [], []⟩ none "pdf_images" 300 "PNG" = .ok (⟨["pdf_images"], [], []⟩, []) ∧
    convert_pdf_bytes_to_images ⟨[], [], []⟩ none "pdf_images" 300 "PNG" = .ok (⟨["pdf_images"], [], []⟩, []) ∧
    convert_specific_pages ⟨[], [], []⟩ none [1, 3] "pdf_images" 300 "PNG" = .ok (⟨["pdf_images"], [], []⟩, []) ∧
    convert_with_custom_settings ⟨[], [], []⟩ none "pdf_images" {} = .ok (⟨["pdf_images"], [], []⟩, []) ∧
    get_pdf_info none (.error "ENOENT") "files/missing.pdf" = {} := by
  have h := c5_unreadable_source_soft_fail ⟨[], [], []⟩ "pdf_images" "files/missing.pdf"
    300 "PNG" [1, 3] {} (.error "ENOENT") (by simp)
  simpa [dirsAfterMakedirs] using h

/-- Claim C10: whenever a rasterizer convert operation returns (rather than
raising from `os.makedirs`), the output directory exists afterwards — also
when decoding failed and `[]` was returned, because the directory is
created before the guarded conversion. -/
theorem c10_output_dir_exists (fs fs1 : FS) (doc : Option (List Image)) (pages : List Nat)
    (dir : String) (dpi : Nat) (fmt : String) (kwargs : CustomKwargs) (r : List String) :
    (convert_pdf_to_images fs doc dir dpi fmt = .ok (fs1, r) → dir ∈ fs1.dirs) ∧
    (convert_pdf_bytes_to_images fs doc dir dpi fmt = .ok (fs1, r) → dir ∈ fs1.dirs) ∧
    (convert_specific_pages fs doc pages dir dpi fmt = .ok (fs1, r) → dir ∈ fs1.dirs) ∧
    (convert_with_custom_settings fs doc dir kwargs = .ok (fs1, r) → dir ∈ fs1.dirs) := by
  refine ⟨?_, ?_, ?_, ?_⟩ <;> intro h
  · unfold convert_pdf_to_images at h
    cases hmk : os_makedirs fs dir with
    | error e => simp [hmk] at h
    | ok fs2 =>
      have hd := os_makedirs_mem fs fs2 dir hmk
      simp only [hmk] at h
      cases doc with
      | none => simp [convert_from_path] at h; rw [← h.1]; exact hd
      | some imgs => simp [convert_from_path] at h; rw [← h.1]; simpa [FS.write] using hd
  · unfold convert_pdf_bytes_to_images at h
    cases hmk : os_makedirs fs dir with
    | error e => simp [hmk] at h
    | ok fs2 =>
      have hd := os_makedirs_mem fs fs2 dir hmk
      simp only [hmk] at h
      cases doc with
      | none => simp [convert_from_path] at h; rw [← h.1]; exact hd
      | some imgs => simp [convert_from_path] at h; rw [← h.1]; simpa [FS.write] using hd
  · unfold convert_specific_pages at h
    cases hmk : os_makedirs fs dir with
    | error e => simp [hmk] at h
    | ok fs2 =>
      have hd := os_makedirs_mem fs fs2 dir hmk
      simp only [hmk] at h
      by_cases hp : pages.isEmpty
      · simp [hp] at h; rw [← h.1]; exact hd
      · simp only [hp, if_neg, Bool.false_eq_true, if_false] at h
        cases doc with
        | none => simp [convert_from_path_range] at h; rw [← h.1]; exact hd
        | some docPages =>
          simp only [convert_from_path_range] at h
          rcases hloop : specificSaveLoop ((docPages.take (pymax pages)).drop (pymin pages - 1))
              (pymin pages) dir fmt 0 (pysorted pages) [] with ⟨w, b⟩
          rw [hloop] at h
          cases b <;> simp at h <;> rw [← h.1] <;> simpa [FS.write] using hd
  · unfold convert_with_custom_settings at h
    cases hmk : os_makedirs fs dir with
    | error e => simp [hmk] at h
    | ok fs2 =>
      have hd := os_makedirs_mem fs fs2 dir hmk
      simp only [hmk] at h
      cases doc with
      | none => simp [convert_from_path] at h; rw [← h.1]; exact hd
      | some imgs => simp [convert_from_path] at h; rw [← h.1]; simpa [FS.write] using hd

/-- Witness for C10: after a failed decode (missing source), `pdf_images`
exists in the resulting filesystem state. -/
theorem c10_output_dir_exists_witness :
    convert_pdf_to_images ⟨[], [], []⟩ none "pdf_images" 300 "PNG" = .ok (⟨["pdf_images"], [], []⟩, []) ∧
    "pdf_images" ∈ (FS.mk ["pdf_images"] [] []).dirs :=
  ⟨by rfl,
   (c10_output_dir_exists ⟨[], [], []⟩ ⟨["pdf_images"], [], []⟩ none [] "pdf_images" 300 "PNG" {} []).1 (by rfl)⟩

theorem ocrPages_error_of_mem (ocr : Image → Except String String)
    (imgs : List Image)
    (hfail : ∃ img ∈ imgs, ∃ e, ocr (preprocessPage img) = .error e) :
    ∀ i : Nat, ∃ e, ocrPages ocr i imgs = .error e := by
  induction imgs with
  | nil => obtain ⟨img, hmem, _⟩ := hfail; exact absurd hmem (List.not_mem_nil img)
  | cons a as ih =>
    intro i
    obtain ⟨img, hmem, e, he⟩ := hfail
    rcases List.mem_cons.mp hmem with hq | hq
    · subst hq
      exact ⟨e, by simp [ocrPages, he]⟩
    · cases hocr : ocr (preprocessPage a) with
      | error e2 => exact ⟨e2, by simp [ocrPages, hocr]⟩
      | ok t =>
        obtain ⟨e3, h3⟩ := ih ⟨img, hq, e, he⟩ (i + 1)
        exact ⟨e3, by simp [ocrPages, hocr, h3]⟩

/-- Claim C3: if rasterization fails, or OCR fails on any page, then
`extract_text_from_pdf` returns the empty string — text from earlier
successfully processed pages is discarded. -/
theorem c3_page_failure_discards_document (doc : Option (List Image))
    (ocr : Image → Except String String)
    (h : doc = none ∨
         ∃ imgs, doc = some imgs ∧ ∃ img ∈ imgs, ∃ e, ocr (preprocessPage img) = .error e) :
    extract_text_from_pdf doc ocr = "" := by
  rcases h with h | ⟨imgs, hdoc, hfail⟩
  · subst h; rfl
  · subst hdoc
    obtain ⟨e, he⟩ := ocrPages_error_of_mem ocr imgs hfail 0
    simp [extract_text_from_pdf, convert_from_path, he]

/-- Witness for C3: a 3-page document where OCR fails exactly on page 2
(`pgB`) yields the empty string, not the text of page 1. -/
theorem c3_page_failure_discards_document_witness :
    extract_text_from_pdf (some [pgA, pgB, pgC]) ocrFailsOnWidth2 = "" :=
  c3_page_failure_discards_document (some [pgA, pgB, pgC]) ocrFailsOnWidth2
    (Or.inr ⟨[pgA, pgB, pgC], rfl, pgB, by simp, "tesseract error", rfl⟩)

theorem processAll_ok (env : Env) (hw : ∀ p c, env.write p c = .ok ()) :
    ∀ l : List String, ∃ rs, processAll env l = .ok rs := by
  intro l
  induction l with
  | nil => exact ⟨[], rfl⟩
  | cons f rest ih =>
    obtain ⟨rs, hrs⟩ := ih
    refine ⟨("extracted_text/" ++ splitextStem f ++ "_extracted.txt",
      extract_text_from_pdf (env.docs (joinPath "files" f)) env.ocr) :: rs, ?_⟩
    simp [processAll, processOne, hw, hrs]

/-- A counterexample environment for claim C6: the batch driver `main`
contains an unguarded `open(output_path, 'w')`, so a failing output write
(e.g. the `extracted_text` directory is missing) raises out of `main` and
aborts the whole batch. -/
theorem c6_counterexample_write_aborts_batch :
    main_driver envWriteFails =
      .error "FileNotFoundError: extracted_text/a_extracted.txt" := rfl

/-- Claim C6 (amended): decode and OCR errors are always caught, so they
never abort the batch driver; only the unguarded output-file write (and the
unguarded `os.makedirs` of the rasterizer functions) can raise.  Whenever
every output write succeeds, `main` terminates without an exception, no
matter how decoding and recognition behave. -/
theorem c6_amended_no_abort_when_writes_succeed (env : Env)
    (hw : ∀ p c, env.write p c = .ok ()) :
    exceptOk (main_driver env) = true := by
  unfold main_driver
  cases hfd : env.files_dir_exists with
  | false => rfl
  | true =>
    simp only [Bool.not_true, Bool.false_eq_true, if_false]
    by_cases hl : (env.listing.filter (fun f => strEndsWith (toLowerStr f) ".pdf")).isEmpty
    · simp [hl, exceptOk]
    · obtain ⟨rs, hrs⟩ := processAll_ok env hw
        (env.listing.filter (fun f => strEndsWith (toLowerStr f) ".pdf"))
      simp [hl, hrs, exceptOk]

/-- Witness for C6 (amended): with succeeding writes, the batch driver of
`envWritesOk` (whose single PDF fails to decode) still finishes normally. -/
theorem c6_amended_no_abort_when_writes_succeed_witness :
    exceptOk (main_driver envWritesOk) = true :=
  c6_amended_no_abort_when_writes_succeed envWritesOk (fun _ _ => rfl)

theorem ocrPages_ok_all (ocr : Image → Except String String) (t : Nat → String) :
    ∀ (imgs : List Image) (i : Nat),
      (∀ j (hj : j < imgs.length), ocr (preprocessPage (imgs.get ⟨j, hj⟩)) = .ok (t (i + j))) →
      ocrPages ocr i imgs =
        .ok ((List.range imgs.length).map
          (fun j => "Page " ++ toString (i + j + 1) ++ ":\n" ++ t (i + j) ++ "\n\n")) := by
  intro imgs
  induction imgs with
  | nil => intro i _; rfl
  | cons a as ih =>
    intro i h
    have h0 : ocr (preprocessPage a) = .ok (t (i + 0)) := h 0 (by simp)
    have hrest : ∀ j (hj : j < as.length),
        ocr (preprocessPage (as.get ⟨j, hj⟩)) = .ok (t ((i + 1) + j)) := by
      intro j hj
      have h2 := h (j + 1) (by simpa using Nat.succ_lt_succ hj)
      have e1 : i + (j + 1) = (i + 1) + j := by omega
      rw [e1] at h2
      exact h2
    have hs := ih (i + 1) hrest
    simp only [ocrPages, h0, hs]
    refine congrArg Except.ok ?_
    rw [List.length_cons, List.range_succ_eq_map, List.map_cons, List.map_map]
    refine List.cons_eq_cons.mpr ⟨by simp, ?_⟩
    refine List.map_congr_left ?_
    intro j _
    have e2 : (i + 1) + j = i + (j + 1) := by omega
    simp only [Function.comp_apply, e2]

theorem extract_text_ok_all (imgs : List Image) (ocr : Image → Except String String)
    (t : Nat → String)
    (hocr : ∀ j (hj : j < imgs.length), ocr (preprocessPage (imgs.get ⟨j, hj⟩)) = .ok (t j)) :
    extract_text_from_pdf (some imgs) ocr =
      String.join ((List.range imgs.length).map
        (fun j => "Page " ++ toString (j + 1) ++ ":\n" ++ t j ++ "\n\n")) := by
  have h := ocrPages_ok_all ocr t imgs 0 (by simpa using hocr)
  simp only [extract_text_from_pdf, convert_from_path, h]
  simp

/-- Claim C8: when every page of a document rasterizes and recognizes
successfully, the batch driver writes one output text file holding, for
each page k (1-based, in page order), a "Page k:" header, the page's
recognized text, and a trailing blank line. -/
theorem c8_batch_driver_output (env : Env) (name : String) (imgs : List Image)
    (t : Nat → String)
    (hdir : env.files_dir_exists = true)
    (hlist : env.listing = [name])
    (hpdf : strEndsWith (toLowerStr name) ".pdf" = true)
    (hdoc : env.docs (joinPath "files" name) = some imgs)
    (hocr : ∀ j (hj : j < imgs.length), env.ocr (preprocessPage (imgs.get ⟨j, hj⟩)) = .ok (t j))
    (hwrite : ∀ p c, env.write p c = .ok ()) :
    main_driver env =
      .ok [("extracted_text/" ++ splitextStem name ++ "_extracted.txt",
        String.join ((List.range imgs.length).map
          (fun j => "Page " ++ toString (j + 1) ++ ":\n" ++ t j ++ "\n\n")))] := by
  have htext := extract_text_ok_all imgs env.ocr t hocr
  unfold main_driver
  rw [hdir, hlist]
  simp only [List.filter, hpdf, Bool.not_true, Bool.false_eq_true, if_false,
    List.isEmpty_cons]
  simp only [processAll, processOne, hdoc, htext, hwrite]

/-- Witness for C8: the 2-page document of `envTwoPages` produces one file
with both page sections in order, each with a trailing blank line. -/
theorem c8_batch_driver_output_witness :
    main_driver envTwoPages =
      .ok [("extracted_text/doc_extracted.txt", "Page 1:\nhello\n\nPage 2:\nworld\n\n")] := by
  have h := c8_batch_driver_output envTwoPages "doc.pdf" [pgA, pgB]
    (fun j => if j = 0 then "hello" else "world") rfl rfl rfl rfl
    (by
      intro j hj
      simp only [List.length_cons, List.length_nil] at hj
      interval_cases j
      · rfl
      · rfl)
    (fun _ _ => rfl)
  rw [h]
  rfl

theorem foldl_min_mem : ∀ (l : List Nat) (a : Nat), l.foldl Nat.min a ∈ a :: l := by
  intro l
  induction l with
  | nil => intro a; simp
  | cons x xs ih =>
    intro a
    rw [List.foldl_cons]
    rcases List.mem_cons.mp (ih (Nat.min a x)) with h1 | h1
    · have h2 : Nat.min a x = a ∨ Nat.min a x = x := by
        rcases Nat.le_total a x with h | h
        · exact Or.inl (Nat.min_eq_left h)
        · exact Or.inr (Nat.min_eq_right h)
      rw [h1]
      rcases h2 with h2 | h2 <;> rw [h2] <;> simp
    · exact List.mem_cons_of_mem _ (List.mem_cons_of_mem _ h1)

theorem foldl_min_le : ∀ (l : List Nat) (a : Nat), ∀ p ∈ a :: l, l.foldl Nat.min a ≤ p := by
  intro l
  induction l with
  | nil =>
    intro a p hp
    simp only [List.mem_singleton] at hp
    subst hp
    simp
  | cons x xs ih =>
    intro a p hp
    rw [List.foldl_cons]
    have hmin : xs.foldl Nat.min (Nat.min a x) ≤ Nat.min a x :=
      ih (Nat.min a x) (Nat.min a x) (List.mem_cons_self _ _)
    rcases List.mem_cons.mp hp with h1 | h1
    · rw [h1]; exact le_trans hmin (Nat.min_le_left a x)
    · rcases List.mem_cons.mp h1 with h2 | h2
      · rw [h2]; exact le_trans hmin (Nat.min_le_right a x)
      · exact ih (Nat.min a x) p (List.mem_cons_of_mem _ h2)

theorem foldl_max_mem : ∀ (l : List Nat) (a : Nat), l.foldl Nat.max a ∈ a :: l := by
  intro l
  induction l with
  | nil => intro a; simp
  | cons x xs ih =>
    intro a
    rw [List.foldl_cons]
    rcases List.mem_cons.mp (ih (Nat.max a x)) with h1 | h1
    · have h2 : Nat.max a x = a ∨ Nat.max a x = x := by
        rcases Nat.le_total a x with h | h
        · exact Or.inr (Nat.max_eq_right h)
        · exact Or.inl (Nat.max_eq_left h)
      rw [h1]
      rcases h2 with h2 | h2 <;> rw [h2] <;> simp
    · exact List.mem_cons_of_mem _ (List.mem_cons_of_mem _ h1)

theorem foldl_max_ge : ∀ (l : List Nat) (a : Nat), ∀ p ∈ a :: l, p ≤ l.foldl Nat.max a := by
  intro l
  induction l with
  | nil =>
    intro a p hp
    simp only [List.mem_singleton] at hp
    subst hp
    simp
  | cons x xs ih =>
    intro a p hp
    rw [List.foldl_cons]
    have hmax : Nat.max a x ≤ xs.foldl Nat.max (Nat.max a x) :=
      ih (Nat.max a x) (Nat.max a x) (List.mem_cons_self _ _)
    rcases List.mem_cons.mp hp with h1 | h1
    · rw [h1]; exact le_trans (Nat.le_max_left a x) hmax
    · rcases List.mem_cons.mp h1 with h2 | h2
      · rw [h2]; exact le_trans (Nat.le_max_right a x) hmax
      · exact ih (Nat.max a x) p (List.mem_cons_of_mem _ h2)

theorem pymin_mem (l : List Nat) (h : l ≠ []) : pymin l ∈ l := by
  cases l with
  | nil => exact absurd rfl h
  | cons x xs => exact foldl_min_mem xs x

theorem pymin_le (l : List Nat) (h : l ≠ []) : ∀ p ∈ l, pymin l ≤ p := by
  cases l with
  | nil => exact absurd rfl h
  | cons x xs => exact foldl_min_le xs x

theorem pymax_mem (l : List Nat) (h : l ≠ []) : pymax l ∈ l := by
  cases l with
  | nil => exact absurd rfl h
  | cons x xs => exact foldl_max_mem xs x

theorem pymax_ge (l : List Nat) (h : l ≠ []) : ∀ p ∈ l, p ≤ pymax l := by
  cases l with
  | nil => exact absurd rfl h
  | cons x xs => exact foldl_max_ge xs x

theorem specificSaveLoop_ok (docPages : List Image) (mn mx : Nat) (dir fmt : String)
    (h1 : 1 ≤ mn) (hmx : mx ≤ docPages.length) :
    ∀ (ps : List Nat) (i : Nat) (acc : List (String × Image)),
      ps.Sorted (· < ·) →
      (∀ p ∈ ps, mn + i ≤ p ∧ p ≤ mx) →
      specificSaveLoop ((docPages.take mx).drop (mn - 1)) mn dir fmt i ps acc =
        (acc ++ ps.map (fun p => (pageFileName dir fmt p, docPages.getD (p - 1) default)), true) := by
  intro ps
  induction ps with
  | nil => intro i acc _ _; simp [specificSaveLoop]
  | cons p rest ih =>
    intro i acc hsort hbound
    have hlen : ((docPages.take mx).drop (mn - 1)).length = mx - (mn - 1) := by
      simp [List.length_drop, List.length_take, Nat.min_eq_left hmx]
    have hp := hbound p (List.mem_cons_self _ _)
    have hi : i < ((docPages.take mx).drop (mn - 1)).length := by rw [hlen]; omega
    have hpN : p - 1 < docPages.length := by omega
    have hget : ((docPages.take mx).drop (mn - 1)).get? (p - mn) =
        some (docPages.getD (p - 1) default) := by
      rw [List.get?_eq_getElem?, List.getElem?_drop]
      have e : (mn - 1) + (p - mn) = p - 1 := by omega
      rw [e, List.getElem?_take, if_pos (by omega), List.getD_eq_getElem docPages default hpN]
      exact List.getElem?_eq_getElem hpN
    have hbr : ∀ q ∈ rest, mn + (i + 1) ≤ q ∧ q ≤ mx := by
      intro q hq
      have hpq : p < q := List.rel_of_sorted_cons hsort q hq
      have := hbound q (List.mem_cons_of_mem _ hq)
      omega
    simp only [specificSaveLoop, if_pos hi, hget]
    rw [ih (i + 1) _ hsort.of_cons hbr]
    simp [pageFileName, List.append_assoc]

/-- Claim C2: for a requested page set P (nonempty, duplicate-free, all
within the document), `convert_specific_pages` decodes only the inclusive
range `min(P)..max(P)` (see `convert_from_path_range` in its definition)
and returns filenames corresponding exactly to P in ascending order,
regardless of the order P was supplied in; the file saved for page p is
the document's page p. -/
theorem c2_specific_pages (fs : FS) (docPages : List Image) (pages : List Nat)
    (dir : String) (dpi : Nat) (fmt : String)
    (hdir : dir ∉ fs.blockedDirs) (hne : pages ≠ [])
    (hnodup : pages.Nodup)
    (hrange : ∀ p ∈ pages, 1 ≤ p ∧ p ≤ docPages.length) :
    convert_specific_pages fs (some docPages) pages dir dpi fmt =
      .ok ({ fs with
              dirs := dirsAfterMakedirs fs dir,
              files := fs.files ++ (pysorted pages).map
                (fun p => (pageFileName dir fmt p, docPages.getD (p - 1) default)) },
           (pysorted pages).map (pageFileName dir fmt)) := by
  have hperm := List.perm_insertionSort (· ≤ ·) pages
  have hsortle : (pysorted pages).Sorted (· ≤ ·) := List.sorted_insertionSort _ pages
  have hnodup2 : (pysorted pages).Nodup := hperm.nodup_iff.mpr hnodup
  have hsort : (pysorted pages).Sorted (· < ·) := by
    unfold List.Sorted at *
    exact (hsortle.and hnodup2).imp (fun h => lt_of_le_of_ne h.1 h.2)
  have hmem : ∀ p ∈ pysorted pages, p ∈ pages := fun p hp => hperm.mem_iff.mp hp
  have h1 : 1 ≤ pymin pages := (hrange _ (pymin_mem pages hne)).1
  have hmx : pymax pages ≤ docPages.length := (hrange _ (pymax_mem pages hne)).2
  have hbound : ∀ p ∈ pysorted pages, pymin pages + 0 ≤ p ∧ p ≤ pymax pages := by
    intro p hp
    have hpp := hmem p hp
    exact ⟨by simpa using pymin_le pages hne p hpp, pymax_ge pages hne p hpp⟩
  have hloop := specificSaveLoop_ok docPages (pymin pages) (pymax pages) dir fmt h1 hmx
    (pysorted pages) 0 [] hsort hbound
  unfold convert_specific_pages
  rw [os_makedirs_ok fs dir hdir]
  have hnee : pages.isEmpty = false := by
    cases pages with
    | nil => exact absurd rfl hne
    | cons x xs => rfl
  simp only [hnee, Bool.false_eq_true, if_false, convert_from_path_range, hloop,
    List.nil_append]
  simp [FS.write, List.map_map]

/-- Witness for C2: requesting pages `[3, 1]` of a 3-page document saves
`page_1` and `page_3` (with the right page images) and returns their paths
in ascending order. -/
theorem c2_specific_pages_witness :
    convert_specific_pages ⟨[], [], []⟩ (some [pgA, pgB, pgC]) [3, 1] "pdf_images" 300 "PNG" =
      .ok (⟨["pdf_images"], [],
            [("pdf_images/page_1.png", pgA), ("pdf_images/page_3.png", pgC)]⟩,
           ["pdf_images/page_1.png", "pdf_images/page_3.png"]) := by
  have h := c2_specific_pages ⟨[], [], []⟩ [pgA, pgB, pgC] [3, 1] "pdf_images" 300 "PNG"
    (by simp) (by simp) (by simp) (by simp)
  rw [h]
  rfl
